import Mathlib

/- Verification of the CollectWise debt-negotiation chatbot.

   The TypeScript source keeps money as JS numbers (decimal dollars) and
   produces integer cents only at the payment-link boundary.  The model keeps
   money as exact rationals (decimal dollars); Math.floor / Math.round on
   cent-scaled amounts become Int.floor / round on ℚ, which agree with the
   source arithmetic at cent granularity for the cent-valued amounts the
   program manipulates.  Strings are modelled as List Char; the regular
   expressions of the source are modelled by explicit left-to-right scanners
   with the same match semantics on the inputs at issue. -/

attribute [local semireducible] Rat.add Rat.mul Rat.sub Rat.inv Rat.ofScientific

namespace CollectWise

/-- Modelled from the spec: the HardshipStatus enum of section 3.  The source
files keep no such enum (each request recomputes approval from the uploaded
files); only the caps 12 and 24 appear in the source as constants. -/
inductive HardshipStatus where
  | unset
  | pendingReview
  | approved
  | rejected
  deriving DecidableEq, Repr

/-- Modelled from the spec: the HardshipGate cap of section 4.2, base cap 12
without approval and extended cap 24 with approval, the constants used
throughout the source prompts and fallback logic. -/
def maxAllowedTerm : HardshipStatus → ℕ
  | .approved => 24
  | _ => 12

/-- Decimal digit character (JS number printing). -/
def digitChar (d : ℕ) : Char := Char.ofNat (48 + d)

/-- Digit-emitting loop for natToChars; the first argument is fuel, always
at least the number of digits when called from natToChars. -/
def natToCharsGo : ℕ → ℕ → List Char → List Char
  | 0, _, acc => acc
  | fuel + 1, n, acc =>
    if n < 10 then digitChar n :: acc
    else natToCharsGo fuel (n / 10) (digitChar (n % 10) :: acc)

/-- Decimal representation of a natural number, as a JS template literal
prints an integer. -/
def natToChars (n : ℕ) : List Char := natToCharsGo (n + 1) n []

/-- Recursive specification of natToChars, used in proofs: leading digits
first, last digit appended. -/
def natReprSpec (n : ℕ) : List Char :=
  if _h : n < 10 then [digitChar n]
  else natReprSpec (n / 10) ++ [digitChar (n % 10)]
decreasing_by exact Nat.div_lt_self (by omega) (by omega)

/-- Numeric value of a digit character (models parseInt digit handling). -/
def charVal (c : Char) : ℕ := c.toNat - 48

/-- Value of a digit string, as JS parseInt reads a run of digits. -/
def parseDigits (s : List Char) : ℕ := s.foldl (fun a c => 10 * a + charVal c) 0

/-- Decimal representation of an integer. -/
def intToChars (i : ℤ) : List Char :=
  if i < 0 then '-' :: natToChars i.natAbs else natToChars i.toNat

/-- JS toFixed(2) for the cent-valued amounts the program prints: integer
dollars, a dot, and two cent digits. -/
def toFixed2 (q : ℚ) : List Char :=
  let c : ℤ := round (q * 100)
  let sgn : List Char := if c < 0 then ['-'] else []
  let n := c.natAbs
  sgn ++ natToChars (n / 100) ++ '.' :: digitChar (n / 10 % 10) :: [digitChar (n % 10)]

/-- JS default number-to-string interpolation for the cent-valued amounts the
program interpolates: integer dollars, then the cent digits with trailing
zeros (and a then-empty fraction) dropped. -/
def ratToChars (q : ℚ) : List Char :=
  let c : ℤ := round (q * 100)
  let sgn : List Char := if c < 0 then ['-'] else []
  let n := c.natAbs
  if n % 100 = 0 then sgn ++ natToChars (n / 100)
  else if n % 10 = 0 then sgn ++ natToChars (n / 100) ++ '.' :: [digitChar (n / 10 % 10)]
  else sgn ++ natToChars (n / 100) ++ '.' :: digitChar (n / 10 % 10) :: [digitChar (n % 10)]

/-- JS String.prototype.toLowerCase on the ASCII text the program handles. -/
def lowerStr (s : List Char) : List Char := s.map Char.toLower

/-- JS String.prototype.includes: does pat occur as a contiguous substring. -/
def occursB (pat : List Char) : List Char → Bool
  | [] => pat.isEmpty
  | c :: cs => pat.isPrefixOf (c :: cs) || occursB pat cs

/-- First maximal digit run of a string: JS text.match with a digit-run
pattern. -/
def firstDigitRun : List Char → Option (List Char)
  | [] => none
  | c :: cs => if c.isDigit then some (c :: cs.takeWhile Char.isDigit)
               else firstDigitRun cs

/-- JS parseInt(text.match(digit run)): the first number in the text. -/
def firstNumber (s : List Char) : Option ℕ := (firstDigitRun s).map parseDigits

/-- Head-of-list digit test: a captured digit run needs at least one digit
right after the pattern. -/
def headIsDigit : List Char → Bool
  | [] => false
  | d :: _ => d.isDigit

/-- First occurrence of pat immediately followed by at least one digit, and
the value of that digit run: JS text.match of pat followed by a captured
digit run, as used for the termLength parameter. -/
def scanNatAfter (pat : List Char) : List Char → Option ℕ
  | [] => none
  | c :: cs =>
    if pat.isPrefixOf (c :: cs) && headIsDigit ((c :: cs).drop pat.length) then
      some (parseDigits (((c :: cs).drop pat.length).takeWhile Char.isDigit))
    else scanNatAfter pat cs

/-- Apostrophe character, spliced into the prose of the source templates. -/
def apoStr : List Char := [Char.ofNat 39]

/-- Uploaded-file record as the route handlers read it: a file name and a
MIME type (empty when the upload carries none). -/
structure FileRec where
  name : List Char
  ftype : List Char
  deriving DecidableEq, Repr

/-- Image-file test of the upload filter (src/unnamed/part_000 lines 26-28,
src/app/api/chat/route.ts lines 25-27): a MIME type starting with image/ or
a file name ending, case-insensitively, in an image extension. -/
def imageFile (f : FileRec) : Bool :=
  ("image/").data.isPrefixOf f.ftype ||
    (let l := lowerStr f.name
     (".jpg").data.isSuffixOf l || (".jpeg").data.isSuffixOf l ||
       (".png").data.isSuffixOf l || (".gif").data.isSuffixOf l ||
       (".webp").data.isSuffixOf l)

/-- Per-request hardship approval recomputation of the POST handlers
(src/unnamed/part_000 lines 19-35, src/app/api/chat/route.ts lines 20-34):
documentApproved starts false on every request and is set from the external
classifier only when the current request carries image files.  The
classifier (the vision call of analyzeDocuments) is the external
collaborator, modelled as an oracle argument. -/
def documentApprovedFlag (classify : List FileRec → Bool)
    (uploadedFiles : List FileRec) : Bool :=
  if uploadedFiles.isEmpty then false
  else
    let imageFiles := uploadedFiles.filter imageFile
    if imageFiles.isEmpty then false else classify imageFiles

/-- Approval flags a session of turns reports, one per turn: the handler is
stateless, so each turn recomputes the flag from its own uploads. -/
def sessionApprovals (classify : List FileRec → Bool)
    (turns : List (List FileRec)) : List Bool :=
  turns.map (documentApprovedFlag classify)

/-- Session-turn request body as the route handlers destructure it. -/
structure ChatRequest where
  message : List Char
  conversationHistory : List (List Char)
  totalDebt : ℚ
  uploadedFiles : List FileRec

/-- The documentApproved flag of the response as a function of the whole
request: the handlers read only uploadedFiles for it, never
conversationHistory. -/
def documentApprovedOfRequest (classify : List FileRec → Bool)
    (req : ChatRequest) : Bool :=
  documentApprovedFlag classify req.uploadedFiles

/-- Document acknowledgment prefix of generateFallbackResponse (identical in
both route variants, src/unnamed/part_000 lines 338-340 and route.ts lines
295-297): the uploaded file names joined with a comma. -/
def docAcknowledgment (uploadedFiles : List FileRec) : List Char :=
  if uploadedFiles.isEmpty then []
  else
    ("Thank you for providing your documentation (").data ++
      List.intercalate ((", ").data) (uploadedFiles.map (fun f => f.name)) ++
      (").\n\nBased on your submitted documents, ").data

namespace Part000

/-- Floor-to-cent base payment: basePayment of calculatePayment in
src/unnamed/part_000 (lines 301-302) before the edge-case override, and the
basePayment of the POST reconciliation block (line 150). -/
def rawBase (totalDebt : ℚ) (termLength : ℕ) : ℚ :=
  (⌊totalDebt / (termLength : ℚ) * 100⌋ : ℚ) / 100

/-- Remainder-absorbing final payment: finalPayment of calculatePayment in
src/unnamed/part_000 (line 303) before the edge-case override, and the
finalPayment of the POST reconciliation block (line 151). -/
def rawFinal (totalDebt : ℚ) (termLength : ℕ) : ℚ :=
  totalDebt - rawBase totalDebt termLength * ((termLength : ℚ) - 1)

/-- Return record of the calculatePayment helper of generateFallbackResponse
in src/unnamed/part_000 (lines 300-336). -/
structure PaymentInfo where
  amount : ℚ
  finalPayment : ℚ
  termLength : ℕ
  hasVariation : Bool
  description : List Char
  breakdown : List Char
  deriving Repr, DecidableEq

/-- Description and breakdown strings of the calculatePayment helper
(src/unnamed/part_000, lines 329-335), built from the settled base and final
payments.  hasVariation models the source's double comparison
Math.abs(finalPayment - basePayment) > 0.01, which the exact comparison
matches at every cent remainder other than exactly one; at a remainder of
exactly one cent the double result is a tie decided by rounding noise, so
tie-case statements are made only at inputs where a double trace takes the
same branch. -/
def mkInfo (totalDebt : ℚ) (termLength : ℕ) (basePayment finalPayment : ℚ) :
    PaymentInfo :=
  let hasVariation := decide (|finalPayment - basePayment| > 1 / 100)
  let description :=
    if hasVariation then
      '$' :: toFixed2 basePayment ++ (" per month for ").data ++
        natToChars (termLength - 1) ++ (" months, then $").data ++
        toFixed2 finalPayment ++ (" for the final month").data
    else
      '$' :: toFixed2 basePayment ++ (" per month for ").data ++
        natToChars termLength ++ (" months").data
  let breakdown :=
    if hasVariation then
      ("\n\nPayment Breakdown:\n- Monthly Payment: $").data ++
        toFixed2 basePayment ++ (" × ").data ++ natToChars (termLength - 1) ++
        (" months = $").data ++ toFixed2 (basePayment * ((termLength : ℚ) - 1)) ++
        ("\n- Final Payment: $").data ++ toFixed2 finalPayment ++
        (" × 1 month = $").data ++ toFixed2 finalPayment ++
        ("\n- Total: $").data ++ toFixed2 totalDebt
    else
      ("\n\nPayment Breakdown:\n- Monthly Payment: $").data ++
        toFixed2 basePayment ++ (" × ").data ++ natToChars termLength ++
        (" months = $").data ++ toFixed2 totalDebt ++
        ("\n- Total: $").data ++ toFixed2 totalDebt
  { amount := basePayment, finalPayment := finalPayment,
    termLength := termLength, hasVariation := hasVariation,
    description := description, breakdown := breakdown }

/-- The calculatePayment helper of generateFallbackResponse in
src/unnamed/part_000 (lines 300-336): floor the exact quotient to the cent,
give the remainder to the final month, and, when the final payment would be
negative or more than double the base, fall back to an even
rounded-to-nearest schedule. -/
def calculatePayment (totalDebt : ℚ) (termLength : ℕ) : PaymentInfo :=
  let exactPayment := totalDebt / (termLength : ℚ)
  let basePayment0 := (⌊exactPayment * 100⌋ : ℚ) / 100
  let finalPayment0 := totalDebt - basePayment0 * ((termLength : ℚ) - 1)
  if finalPayment0 < 0 ∨ finalPayment0 > basePayment0 * 2 then
    let b := ((round (exactPayment * 100) : ℤ) : ℚ) / 100
    mkInfo totalDebt termLength b b
  else
    mkInfo totalDebt termLength basePayment0 finalPayment0

/-- The link marker of the source regex: collectwise.com/payments? (the
regex then extends over a maximal run of non-space characters). -/
def urlMarker : List Char :=
  ['c', 'o', 'l', 'l', 'e', 'c', 't', 'w', 'i', 's', 'e', '.', 'c', 'o',
   'm', '/', 'p', 'a', 'y', 'm', 'e', 'n', 't', 's', '?']

/-- The termLength= parameter pattern of the source regexes. -/
def termPat : List Char :=
  ['t', 'e', 'r', 'm', 'L', 'e', 'n', 'g', 't', 'h', '=']

/-- Whitespace as the \s class of the source regexes treats the text at
issue. -/
def isSpace (c : Char) : Bool := c = ' ' || c = '\n' || c = '\t' || c = '\r'

/-- Scanning loop of the link-replacing JS replace call: the first argument
counts characters of an already-replaced match still to skip (0 in scan
mode).  On a match the marker plus the maximal non-space run after it is
skipped and the replacement emitted, as the global regex does. -/
def replaceLinksGo (url : List Char) : ℕ → List Char → List Char
  | _, [] => []
  | n + 1, _ :: cs => replaceLinksGo url n cs
  | 0, c :: cs =>
    if urlMarker.isPrefixOf (c :: cs) then
      url ++ replaceLinksGo url
        (24 + (List.takeWhile (fun d => !isSpace d) (List.drop 24 cs)).length) cs
    else c :: replaceLinksGo url 0 cs

/-- JS response.replace(urlRegex, correctUrl) for the global regex matching
urlMarker followed by a maximal run of non-space characters: every
occurrence is replaced, scanning left to right and resuming after the
matched span. -/
def replaceLinks (url : List Char) (s : List Char) : List Char :=
  replaceLinksGo url 0 s

/-- The corrected payment link the POST reconciliation block builds
(src/unnamed/part_000 lines 154-157): cent-valued payment fields, the final
field falling back to the base amount when the schedule shows no
variation. -/
def correctUrl (totalDebt : ℚ) (termLength : ℕ) (basePayment finalPayment : ℚ)
    (hasVariation : Bool) : List Char :=
  urlMarker ++ termPat ++ natToChars termLength ++
    ("&totalDebtAmount=").data ++ ratToChars totalDebt ++
    ("&termPaymentAmount=").data ++ intToChars (round (basePayment * 100)) ++
    ("&finalPaymentAmount=").data ++
    intToChars (round ((if hasVariation then finalPayment else basePayment) * 100))

/-- Length consumed by the regex fragment [\d,]+\.?\d* at the head of the
text, greedily; none when the leading digit-or-comma run is empty. -/
def amountLen (cs : List Char) : Option ℕ :=
  let run1 := cs.takeWhile (fun d => d.isDigit || d = ',')
  if run1.isEmpty then none
  else
    let rest1 := cs.drop run1.length
    let n2 := match rest1 with
      | '.' :: r => 1 + (r.takeWhile Char.isDigit).length
      | _ => 0
    some (run1.length + n2)

/-- Length consumed by the tail of the per-month prose regex
\$[\d,]+\.?\d* per month after its leading dollar sign: an amount followed
by the given literal. -/
def munchTail (lit : List Char) (cs : List Char) : Option ℕ :=
  match amountLen cs with
  | none => none
  | some n =>
    if lit.isPrefixOf (cs.drop n) then some (n + lit.length) else none

/-- Length consumed by the tail of the division prose regex
\$[\d,]+\.?\d* ÷ \d+ = \$[\d,]+\.?\d* per month after its leading dollar
sign. -/
def munchDiv (cs : List Char) : Option ℕ :=
  match amountLen cs with
  | none => none
  | some n1 =>
    let r1 := cs.drop n1
    if (" ÷ ").data.isPrefixOf r1 then
      let r2 := r1.drop 3
      let digits := r2.takeWhile Char.isDigit
      if digits.isEmpty then none
      else
        let r3 := r2.drop digits.length
        if (" = $").data.isPrefixOf r3 then
          let r4 := r3.drop 4
          match amountLen r4 with
          | none => none
          | some n2 =>
            if (" per month").data.isPrefixOf (r4.drop n2) then
              some (n1 + 3 + digits.length + 4 + n2 + 10)
            else none
        else none
    else none

/-- Scanning loop of a prose-replacing JS replace call; the first argument
counts characters of an already-replaced match still to skip (0 in scan
mode). -/
def replacePatGo (m : List Char → Option ℕ) (repl : List Char) :
    ℕ → List Char → List Char
  | _, [] => []
  | n + 1, _ :: cs => replacePatGo m repl n cs
  | 0, c :: cs =>
    if c = '$' then
      match m cs with
      | some n => repl ++ replacePatGo m repl n cs
      | none => c :: replacePatGo m repl 0 cs
    else c :: replacePatGo m repl 0 cs

/-- JS response.replace for a global prose regex starting with a dollar
sign: at every dollar sign whose tail the muncher accepts, the whole match
is replaced and scanning resumes after it. -/
def replacePat (m : List Char → Option ℕ) (repl : List Char) (s : List Char) :
    List Char :=
  replacePatGo m repl 0 s

/-- Replacement prose for the per-month regex (src/unnamed/part_000 line
162). -/
def perMonthRepl (termLength : ℕ) (basePayment finalPayment : ℚ) : List Char :=
  '$' :: toFixed2 basePayment ++ (" per month for ").data ++
    natToChars (termLength - 1) ++ (" months, then $").data ++
    toFixed2 finalPayment ++ (" for the final month").data

/-- Replacement prose for the division regex (src/unnamed/part_000 line
163). -/
def divRepl (totalDebt : ℚ) (termLength : ℕ) (basePayment finalPayment : ℚ) :
    List Char :=
  ("Payment breakdown: $").data ++ toFixed2 basePayment ++ (" × ").data ++
    natToChars (termLength - 1) ++ (" months + $").data ++
    toFixed2 finalPayment ++ (" final = $").data ++ toFixed2 totalDebt

/-- The POST reconciliation block of src/unnamed/part_000 (lines 135-168):
when a payment link occurs, parse the first termLength parameter, recompute
the schedule with the floor method, rewrite inexact per-month prose when
the schedule varies, and rewrite every payment link to the corrected URL;
otherwise pass the text through unchanged.  (For a termLength of 0 the JS
division yields Infinity; the model yields base 0 — the difference is
outside every term length the system emits, which are ≥ 1.  The
hasVariation threshold carries the one-cent-remainder tie caveat described
at linkCents.) -/
def reconcile (response : List Char) (totalDebt : ℚ) : List Char :=
  if occursB urlMarker response then
    match scanNatAfter termPat response with
    | some termLength =>
      let basePayment := rawBase totalDebt termLength
      let finalPayment := rawFinal totalDebt termLength
      let hasVariation := decide (|finalPayment - basePayment| > 1/100)
      let url := correctUrl totalDebt termLength basePayment finalPayment hasVariation
      let response1 :=
        if hasVariation then
          replacePat munchDiv (divRepl totalDebt termLength basePayment finalPayment)
            (replacePat (munchTail ((" per month").data))
              (perMonthRepl termLength basePayment finalPayment) response)
        else response
      replaceLinks url response1
    | none => response
  else response

/-- Payment link of the fallback responses (src/unnamed/part_000 lines 346,
376, 383, 396): cent-valued amounts, the final field falling back to the
base amount when the schedule shows no variation.  The source computes
linkPaymentAmount as hasVariation ? amount : amount, i.e. always the base
amount. -/
def fallbackLink (totalDebt : ℚ) (p : PaymentInfo) : List Char :=
  urlMarker ++ termPat ++ natToChars p.termLength ++
    ("&totalDebtAmount=").data ++ ratToChars totalDebt ++
    ("&termPaymentAmount=").data ++ intToChars (round (p.amount * 100)) ++
    ("&finalPaymentAmount=").data ++
    intToChars (if p.hasVariation then round (p.finalPayment * 100)
                else round (p.amount * 100))

/-- Plan presentation shared by the link-granting replies: the source
repeats this template literally at src/unnamed/part_000 lines 344-346,
374-376, 381-383 and 393-396. -/
def planBody (totalDebt : ℚ) (p : PaymentInfo) : List Char :=
  ("For a ").data ++ natToChars p.termLength ++
    ("-month payment plan on a debt of $").data ++ toFixed2 totalDebt ++
    (", here").data ++ apoStr ++ ("s the breakdown:\n\n").data ++
    p.description ++ p.breakdown ++
    ("\n\nHere").data ++ apoStr ++
    ("s your secure payment link to get started:\n").data ++
    fallbackLink totalDebt p

/-- Default reply of generateFallbackResponse (src/unnamed/part_000 lines
407-409): open at 8 months. -/
def defaultReply (totalDebt : ℚ) (ack : List Char) : List Char :=
  ("I want to work with you on this.\n\n").data ++ ack ++
    ("Let").data ++ apoStr ++ ("s start with ").data ++
    (calculatePayment totalDebt 8).description ++
    (" - this gets it resolved efficiently.\n\nIf that").data ++ apoStr ++
    ("s too high for your budget, let me know and we can discuss other options.").data

/-- The explicit-term branch of generateFallbackResponse
(src/unnamed/part_000 lines 366-405), reached when the lowercased message
contains month and the message contains a number; suggestedMonths is the
first number of the message.  Each guard below is the source guard
specialized by the conditions already established at that point. -/
def termRequestReply (totalDebt : ℚ) (suggestedMonths : ℕ)
    (hasDocumentation : Bool) (ack : List Char) : List Char :=
  if 1 ≤ suggestedMonths ∧ suggestedMonths ≤ 24 then
    if suggestedMonths ≤ 8 then
      ("Excellent! I appreciate you wanting to resolve this quickly.\n\n").data ++
        ack ++ planBody totalDebt (calculatePayment totalDebt suggestedMonths)
    else if suggestedMonths ≤ 12 then
      ("I can work with that plan.\n\n").data ++
        ack ++ planBody totalDebt (calculatePayment totalDebt suggestedMonths)
    else if !hasDocumentation then
      ("I understand you").data ++ apoStr ++
        ("d prefer lower payments, but ").data ++ natToChars suggestedMonths ++
        (" months would require documentation of financial hardship.\n\n").data ++
        ack ++ ("Without documentation, the maximum term I can offer is ").data ++
        (calculatePayment totalDebt 12).description ++
        (".\n\nIf you").data ++ apoStr ++
        ("re experiencing job loss, medical expenses, or other hardship, please upload supporting documentation for longer terms.").data
    else
      ("I can work with that plan.\n\n").data ++
        ack ++ planBody totalDebt (calculatePayment totalDebt suggestedMonths)
  else if 24 < suggestedMonths then
    ("I understand you").data ++ apoStr ++
      ("d prefer lower payments, but ").data ++ natToChars suggestedMonths ++
      (" months is beyond what we can offer.\n\n").data ++ ack ++
      ("The maximum term I can offer is ").data ++
      (calculatePayment totalDebt (if hasDocumentation then 24 else 12)).description ++
      (".\n\nWould this work for you?").data
  else
    defaultReply totalDebt ack

/-- generateFallbackResponse of src/unnamed/part_000 (lines 295-410): the
deterministic reply built from the user message, the debt and the uploads
when the model call fails.  hasDocumentation is the source test of a
nonempty uploadedFiles array. -/
def generateFallbackResponse (userMessage : List Char) (totalDebt : ℚ)
    (uploadedFiles : List FileRec) : List Char :=
  let lowerMessage := lowerStr userMessage
  let hasDocumentation := !uploadedFiles.isEmpty
  let ack := docAcknowledgment uploadedFiles
  if occursB ("yes").data lowerMessage || occursB ("works").data lowerMessage ||
      occursB ("good").data lowerMessage || occursB ("sure").data lowerMessage then
    let payment := calculatePayment totalDebt (if hasDocumentation then 18 else 12)
    ("Perfect! ").data ++ ack ++ ("I").data ++ apoStr ++
      ("m glad we found something that works for you.\n\n").data ++
      planBody totalDebt payment
  else if occursB ("laid off").data lowerMessage ||
      occursB ("lost job").data lowerMessage ||
      occursB ("unemployed").data lowerMessage then
    let payment := calculatePayment totalDebt (if hasDocumentation then 12 else 8)
    ("I really understand how challenging job loss can be, and I want to work with you during this difficult time.\n\n").data ++
      ack ++ ("How about ").data ++ payment.description ++
      ("?\n\nFor this extended plan, I").data ++ apoStr ++
      ("ll need to see some recent documentation of your situation (unemployment benefits, job search records, etc.). Does this feel manageable for your current situation?").data
  else if occursB ("too high").data lowerMessage ||
      occursB ("expensive").data lowerMessage ||
      occursB (("can").data ++ apoStr ++ ("t afford").data) lowerMessage then
    if !hasDocumentation then
      ("I completely understand that affordability is important.\n\n").data ++
        ack ++ ("Let me try a longer timeline: ").data ++
        (calculatePayment totalDebt 10).description ++
        (".\n\nWould this work better for your budget?").data
    else
      ("I completely understand that affordability is important.\n\n").data ++
        ack ++ ("Based on your documentation, I can offer: ").data ++
        (calculatePayment totalDebt 18).description ++
        (".\n\nWould this work better for your budget?").data
  else
    match (if occursB ("month").data lowerMessage then firstNumber userMessage
           else none) with
    | some suggestedMonths =>
      termRequestReply totalDebt suggestedMonths hasDocumentation ack
    | none => defaultReply totalDebt ack

end Part000

namespace Route

/-- Return record of the calculatePayment helper in
src/app/api/chat/route.ts (lines 276-293): a single rounded monthly amount;
no separate final payment is computed. -/
structure PaymentInfo where
  amount : ℚ
  termLength : ℕ
  hasVariation : Bool
  description : List Char
  deriving DecidableEq, Repr

/-- The calculatePayment helper of src/app/api/chat/route.ts (lines
276-293): round the exact quotient to the nearest cent and note a possible
final-payment variation when the rounded schedule misses the debt by more
than a cent. -/
def calculatePayment (totalDebt : ℚ) (termLength : ℕ) : PaymentInfo :=
  let exactPayment := totalDebt / (termLength : ℚ)
  let roundedPayment := ((round (exactPayment * 100) : ℤ) : ℚ) / 100
  let totalWithRounded := roundedPayment * (termLength : ℚ)
  let difference := |totalWithRounded - totalDebt|
  let hasVariation := decide (difference > 1/100)
  { amount := roundedPayment, termLength := termLength,
    hasVariation := hasVariation,
    description :=
      if hasVariation then
        '$' :: toFixed2 roundedPayment ++ (" per month for ").data ++
          natToChars termLength ++
          (" months (final payment may vary slightly to cover the exact total)").data
      else
        '$' :: toFixed2 roundedPayment ++ (" per month for ").data ++
          natToChars termLength ++ (" months").data }

/-- Decimal-dollar payment link of the route.ts fallback (line 302); the
link marker and termLength pattern are the same constants as in the
part_000 variant. -/
def fallbackLink (totalDebt : ℚ) (p : PaymentInfo) : List Char :=
  Part000.urlMarker ++ Part000.termPat ++ natToChars p.termLength ++
    ("&totalDebtAmount=").data ++ ratToChars totalDebt ++
    ("&termPaymentAmount=").data ++ ratToChars p.amount

/-- generateFallbackResponse of src/app/api/chat/route.ts (lines 271-325):
the same keyword branches as the part_000 variant, without the
explicit-term branch, over the rounded calculator. -/
def generateFallbackResponse (userMessage : List Char) (totalDebt : ℚ)
    (uploadedFiles : List FileRec) : List Char :=
  let lowerMessage := lowerStr userMessage
  let hasDocumentation := !uploadedFiles.isEmpty
  let ack := docAcknowledgment uploadedFiles
  if occursB ("yes").data lowerMessage || occursB ("works").data lowerMessage ||
      occursB ("good").data lowerMessage || occursB ("sure").data lowerMessage then
    let payment := calculatePayment totalDebt (if hasDocumentation then 18 else 12)
    ("Perfect! ").data ++ ack ++ ("I").data ++ apoStr ++
      ("m glad we found something that works for you.\n\nHere").data ++ apoStr ++
      ("s your secure payment link to get started:\n").data ++
      fallbackLink totalDebt payment
  else if occursB ("laid off").data lowerMessage ||
      occursB ("lost job").data lowerMessage ||
      occursB ("unemployed").data lowerMessage then
    let payment := calculatePayment totalDebt (if hasDocumentation then 12 else 8)
    ("I really understand how challenging job loss can be, and I want to work with you during this difficult time.\n\n").data ++
      ack ++ ("How about ").data ++ payment.description ++
      ("?\n\nFor this extended plan, I").data ++ apoStr ++
      ("ll need to see some recent documentation of your situation (unemployment benefits, job search records, etc.). Does this feel manageable for your current situation?").data
  else if occursB ("too high").data lowerMessage ||
      occursB ("expensive").data lowerMessage ||
      occursB (("can").data ++ apoStr ++ ("t afford").data) lowerMessage then
    if !hasDocumentation then
      ("I completely understand that affordability is important.\n\n").data ++
        ack ++ ("Let me try a longer timeline: ").data ++
        (calculatePayment totalDebt 10).description ++
        (".\n\nWould this work better for your budget?").data
    else
      ("I completely understand that affordability is important.\n\n").data ++
        ack ++ ("Based on your documentation, I can offer: ").data ++
        (calculatePayment totalDebt 18).description ++
        (".\n\nWould this work better for your budget?").data
  else
    ("I want to work with you on this.\n\n").data ++ ack ++
      ("Let").data ++ apoStr ++ ("s start with ").data ++
      (calculatePayment totalDebt 8).description ++
      (" - this gets it resolved efficiently.\n\nIf that").data ++ apoStr ++
      ("s too high for your budget, let me know and we can discuss other options.").data

/-- Needle of the agreement check (route.ts lines 154 and 168): the link
host and path, without the query question mark. -/
def linkNeedle : List Char :=
  ['c', 'o', 'l', 'l', 'e', 'c', 't', 'w', 'i', 's', 'e', '.', 'c', 'o',
   'm', '/', 'p', 'a', 'y', 'm', 'e', 'n', 't', 's']

/-- Session-turn response fields the claims read. -/
structure TurnResponse where
  response : List Char
  agreementReached : Bool
  deriving DecidableEq, Repr

/-- The catch path of POST in src/app/api/chat/route.ts (lines 162-175),
taken when the model call fails or exceeds the 10-second timeout: the
deterministic fallback built from message, totalDebt and uploadedFiles
only, agreement read off the presence of a payment link. -/
def postTurnOnFailure (req : ChatRequest) : TurnResponse :=
  let fallbackResponse :=
    generateFallbackResponse req.message req.totalDebt req.uploadedFiles
  { response := fallbackResponse,
    agreementReached := occursB linkNeedle fallbackResponse }

end Route

namespace Client

/-- Negotiation phases of the chat client (ChatInterface.tsx line 39). -/
inductive NegotiationState where
  | initial
  | negotiating
  | completed
  deriving DecidableEq, Repr

/-- Uploaded-files field of a regular chat message request
(ChatInterface.tsx line 165): the client always sends an empty list on
regular messages, file data being reserved for the document-analysis
request. -/
def regularUploadedFiles : List FileRec := []

/-- Request body of a regular chat message (ChatInterface.tsx lines
156-167). -/
def regularRequest (message : List Char) (history : List (List Char))
    (totalDebt : ℚ) : ChatRequest :=
  { message := message, conversationHistory := history,
    totalDebt := totalDebt, uploadedFiles := regularUploadedFiles }

/-- Literal-prefix step of the composite client link regex. -/
def expectPrefix (pat cs : List Char) : Option (List Char) :=
  if pat.isPrefixOf cs then some (cs.drop pat.length) else none

/-- Digit-run step of the client regex: a plain captured digit run. -/
def expectDigits (cs : List Char) : Option (List Char) :=
  let ds := cs.takeWhile Char.isDigit
  if ds.isEmpty then none else some (cs.drop ds.length)

/-- Amount step of the client regex: digits with an optional two-digit
decimal part. -/
def expectAmount (cs : List Char) : Option (List Char) :=
  let ds := cs.takeWhile Char.isDigit
  if ds.isEmpty then none
  else
    let r := cs.drop ds.length
    match r with
    | '.' :: a :: b :: rest =>
      if a.isDigit && b.isDigit then some rest else some r
    | _ => some r

/-- The composite payment-link regex of the client (ChatInterface.tsx line
242) tested at one position: marker, termLength digits, totalDebtAmount and
termPaymentAmount amounts. -/
def clientUrlMatchAt (cs : List Char) : Bool :=
  (do
    let r1 ← expectPrefix (Part000.urlMarker ++ Part000.termPat) cs
    let r2 ← expectDigits r1
    let r3 ← expectPrefix (("&totalDebtAmount=").data) r2
    let r4 ← expectAmount r3
    let r5 ← expectPrefix (("&termPaymentAmount=").data) r4
    let _ ← expectAmount r5
    pure ()).isSome

/-- The composite payment-link regex of the client, scanned left to
right. -/
def clientUrlMatch : List Char → Bool
  | [] => false
  | c :: cs => clientUrlMatchAt (c :: cs) || clientUrlMatch cs

/-- Phase update of handleSubmit after a successful fetch (ChatInterface.tsx
lines 244-282): completed when the composite link regex matches or the
server reports agreement, otherwise negotiating. -/
def nextNegotiationState (response : List Char) (agreementReached : Bool) :
    NegotiationState :=
  if clientUrlMatch response || agreementReached then .completed
  else .negotiating

end Client

-- Everything above is the embedding of the source; everything below is
-- theorems about it.

theorem isPrefixOf_append_self (l r : List Char) : l.isPrefixOf (l ++ r) = true := by
  induction l with
  | nil => exact List.isPrefixOf_nil_left ..
  | cons c cs ih => simp [List.isPrefixOf, ih]

theorem isPrefixOf_of_append_isPrefixOf (l1 l2 s : List Char)
    (h : (l1 ++ l2).isPrefixOf s = true) : l1.isPrefixOf s = true := by
  induction l1 generalizing s with
  | nil => exact List.isPrefixOf_nil_left ..
  | cons c cs ih =>
    cases s with
    | nil => simp [List.isPrefixOf] at h
    | cons b bs =>
      simp only [List.cons_append, List.isPrefixOf, Bool.and_eq_true] at h ⊢
      exact ⟨h.1, ih bs h.2⟩

theorem scanNatAfter_cons_neg (pat : List Char) (c : Char) (cs : List Char)
    (h : (pat.isPrefixOf (c :: cs) && headIsDigit ((c :: cs).drop pat.length)) = false) :
    scanNatAfter pat (c :: cs) = scanNatAfter pat cs := by
  rw [scanNatAfter, if_neg]
  simp [h]

theorem natToCharsGo_eq (fuel n : ℕ) (acc : List Char) (h : n < fuel) :
    natToCharsGo fuel n acc = natReprSpec n ++ acc := by
  induction fuel generalizing n acc with
  | zero => omega
  | succ fuel ih =>
    rw [natToCharsGo, natReprSpec]
    by_cases h10 : n < 10
    · simp [h10]
    · rw [dif_neg h10, ih (n / 10) _ (by omega)]
      simp [h10]

theorem natToChars_eq (n : ℕ) : natToChars n = natReprSpec n := by
  rw [natToChars, natToCharsGo_eq n.succ n [] (Nat.lt_succ_self n), List.append_nil]

theorem mem_natReprSpec (n : ℕ) :
    ∀ c ∈ natReprSpec n, ∃ d, d < 10 ∧ c = digitChar d := by
  induction n using Nat.strong_induction_on with
  | _ n ih =>
    intro c hc
    rw [natReprSpec] at hc
    by_cases h10 : n < 10
    · simp [h10] at hc
      exact ⟨n, h10, hc⟩
    · rw [dif_neg h10] at hc
      rcases List.mem_append.1 hc with h | h
      · exact ih (n / 10) (Nat.div_lt_self (by omega) (by omega)) c h
      · simp at h
        exact ⟨n % 10, Nat.mod_lt _ (by omega), h⟩

theorem digitChar_isDigit : ∀ d, d < 10 → (digitChar d).isDigit = true := by decide

theorem digitChar_not_space :
    ∀ d, d < 10 → (!Part000.isSpace (digitChar d)) = true := by decide

theorem digitChar_ne_dollar : ∀ d, d < 10 → ¬ digitChar d = '$' := by decide

theorem natReprSpec_ne_nil (n : ℕ) : natReprSpec n ≠ [] := by
  rw [natReprSpec]
  by_cases h10 : n < 10 <;> simp [h10]

theorem charVal_digitChar : ∀ d, d < 10 → charVal (digitChar d) = d := by decide

theorem parse_natReprSpec (n : ℕ) : parseDigits (natReprSpec n) = n := by
  induction n using Nat.strong_induction_on with
  | _ n ih =>
    rw [natReprSpec]
    by_cases h10 : n < 10
    · simp [h10, parseDigits, List.foldl, charVal_digitChar n h10]
    · rw [dif_neg h10]
      unfold parseDigits
      rw [List.foldl_append]
      have := ih (n / 10) (Nat.div_lt_self (by omega) (by omega))
      unfold parseDigits at this
      rw [this]
      simp [List.foldl, charVal_digitChar (n % 10) (Nat.mod_lt _ (by omega))]
      omega

theorem parse_natToChars (n : ℕ) : parseDigits (natToChars n) = n := by
  rw [natToChars_eq]
  exact parse_natReprSpec n

theorem natToChars_all_digit (n : ℕ) :
    ∀ c ∈ natToChars n, c.isDigit = true := by
  rw [natToChars_eq]
  intro c hc
  obtain ⟨d, hd, rfl⟩ := mem_natReprSpec n c hc
  exact digitChar_isDigit d hd

theorem natToChars_all_nonspace (n : ℕ) :
    ∀ c ∈ natToChars n, (!Part000.isSpace c) = true := by
  rw [natToChars_eq]
  intro c hc
  obtain ⟨d, hd, rfl⟩ := mem_natReprSpec n c hc
  exact digitChar_not_space d hd

theorem natToChars_no_dollar (n : ℕ) :
    ∀ c ∈ natToChars n, ¬ c = '$' := by
  rw [natToChars_eq]
  intro c hc
  obtain ⟨d, hd, rfl⟩ := mem_natReprSpec n c hc
  exact digitChar_ne_dollar d hd

theorem natToChars_ne_nil (n : ℕ) : natToChars n ≠ [] := by
  rw [natToChars_eq]
  exact natReprSpec_ne_nil n

theorem takeWhile_append_all (p : Char → Bool) (l r : List Char)
    (h : ∀ c ∈ l, p c = true) :
    List.takeWhile p (l ++ r) = l ++ List.takeWhile p r := by
  induction l with
  | nil => simp
  | cons c cs ih =>
    simp only [List.cons_append, List.takeWhile]
    rw [h c (by simp)]
    rw [show cs.append r = cs ++ r from rfl, ih (fun c hc => h c (by simp [hc]))]

theorem takeWhile_all (p : Char → Bool) (l : List Char)
    (h : ∀ c ∈ l, p c = true) : List.takeWhile p l = l := by
  have := takeWhile_append_all p l [] h
  simpa using this

theorem takeWhile_nil_of_head (p : Char → Bool) (r : List Char)
    (h : match r with | [] => True | c :: _ => p c = false) :
    List.takeWhile p r = [] := by
  cases r with
  | nil => simp
  | cons c cs => simp_all [List.takeWhile]



theorem occursB_self_append (pat r : List Char) (h : pat ≠ []) :
    occursB pat (pat ++ r) = true := by
  cases pat with
  | nil => exact absurd rfl h
  | cons c cs =>
    have hpre := isPrefixOf_append_self (c :: cs) r
    rw [List.cons_append]
    rw [occursB]
    rw [List.cons_append] at hpre
    simp [hpre]

theorem scanNatAfter_hit (pat rest : List Char) (hne : pat ≠ [])
    (hd : headIsDigit rest = true) :
    scanNatAfter pat (pat ++ rest) =
      some (parseDigits (rest.takeWhile Char.isDigit)) := by
  cases pat with
  | nil => exact absurd rfl hne
  | cons p ps =>
    have hpre := isPrefixOf_append_self (p :: ps) rest
    have hdrop := List.drop_left (p :: ps) rest
    rw [List.cons_append]
    rw [scanNatAfter]
    rw [List.cons_append] at hpre hdrop
    rw [if_pos]
    · rw [hdrop]
    · rw [hpre, hdrop, hd]
      rfl

theorem scanNat_link (t : ℕ) (r : List Char) (hr : headIsDigit r = false) :
    scanNatAfter Part000.termPat
      (Part000.urlMarker ++ (Part000.termPat ++ (natToChars t ++ r))) = some t := by
  obtain ⟨d, ds, hcons⟩ : ∃ d ds, natToChars t = d :: ds := by
    cases hx : natToChars t with
    | nil => exact absurd hx (natToChars_ne_nil t)
    | cons d ds => exact ⟨d, ds, rfl⟩
  have hdg : d.isDigit = true := by
    have := natToChars_all_digit t d (by rw [hcons]; simp)
    exact this
  simp only [Part000.urlMarker, List.cons_append, List.nil_append]
  iterate 25 rw [scanNatAfter_cons_neg _ _ _ (by rfl)]
  rw [scanNatAfter_hit _ _ (by simp [Part000.termPat]) (by rw [hcons]; simpa [headIsDigit] using hdg)]
  rw [takeWhile_append_all _ _ _ (natToChars_all_digit t),
      takeWhile_nil_of_head _ _ (by cases r with | nil => trivial | cons a as => simpa [headIsDigit] using hr)]
  rw [List.append_nil, parse_natToChars]



theorem replaceLinksGo_past_end (url : List Char) :
    ∀ (l : List Char) (n : ℕ), l.length ≤ n → Part000.replaceLinksGo url n l = [] := by
  intro l
  induction l with
  | nil => intro n _; cases n <;> rfl
  | cons c cs ih =>
    intro n hn
    cases n with
    | zero => simp at hn
    | succ m =>
      rw [Part000.replaceLinksGo]
      exact ih m (by simpa using hn)

theorem replaceLinks_single (url rest : List Char)
    (h : ∀ c ∈ rest, (!Part000.isSpace c) = true) :
    Part000.replaceLinks url (Part000.urlMarker ++ rest) = url := by
  rw [Part000.replaceLinks]
  rw [show Part000.urlMarker ++ rest =
      'c' :: 'o' :: 'l' :: 'l' :: 'e' :: 'c' :: 't' :: 'w' :: 'i' :: 's' :: 'e' :: '.' :: 'c' ::
        'o' :: 'm' :: '/' :: 'p' :: 'a' :: 'y' :: 'm' :: 'e' :: 'n' :: 't' :: 's' :: '?' :: rest
    from rfl]
  rw [Part000.replaceLinksGo]
  have hpre : Part000.urlMarker.isPrefixOf
      ('c' :: 'o' :: 'l' :: 'l' :: 'e' :: 'c' :: 't' :: 'w' :: 'i' :: 's' :: 'e' :: '.' :: 'c' ::
        'o' :: 'm' :: '/' :: 'p' :: 'a' :: 'y' :: 'm' :: 'e' :: 'n' :: 't' :: 's' :: '?' :: rest) =
      true :=
    isPrefixOf_append_self Part000.urlMarker rest
  rw [if_pos hpre]
  rw [show List.drop 24
      ('o' :: 'l' :: 'l' :: 'e' :: 'c' :: 't' :: 'w' :: 'i' :: 's' :: 'e' :: '.' :: 'c' ::
        'o' :: 'm' :: '/' :: 'p' :: 'a' :: 'y' :: 'm' :: 'e' :: 'n' :: 't' :: 's' :: '?' :: rest) = rest
    from rfl]
  rw [takeWhile_all _ _ h]
  rw [replaceLinksGo_past_end url _ _ (by simp [List.length_cons]; omega)]
  exact List.append_nil url

theorem replacePatGo_no_dollar (m : List Char → Option ℕ) (repl : List Char) :
    ∀ (s : List Char), (∀ c ∈ s, ¬ c = '$') → Part000.replacePatGo m repl 0 s = s := by
  intro s
  induction s with
  | nil => intro _; rfl
  | cons c cs ih =>
    intro h
    rw [Part000.replacePatGo, if_neg (h c (by simp))]
    rw [ih (fun c hc => h c (by simp [hc]))]

theorem replacePat_no_dollar (m : List Char → Option ℕ) (repl : List Char)
    (s : List Char) (h : ∀ c ∈ s, ¬ c = '$') : Part000.replacePat m repl s = s :=
  replacePatGo_no_dollar m repl s h

theorem linkText_no_dollar (t : ℕ) :
    ∀ c ∈ Part000.urlMarker ++ (Part000.termPat ++ natToChars t), ¬ c = '$' := by
  have h1 : ∀ c ∈ Part000.urlMarker, ¬ c = '$' := by decide
  have h2 : ∀ c ∈ Part000.termPat, ¬ c = '$' := by decide
  intro c hc
  rcases List.mem_append.1 hc with h | h
  · exact h1 c h
  · rcases List.mem_append.1 h with h | h
    · exact h2 c h
    · exact natToChars_no_dollar t c h



theorem linkText_nonspace (t : ℕ) :
    ∀ c ∈ Part000.termPat ++ natToChars t, (!Part000.isSpace c) = true := by
  have h2 : ∀ c ∈ Part000.termPat, (!Part000.isSpace c) = true := by decide
  intro c hc
  rcases List.mem_append.1 hc with h | h
  · exact h2 c h
  · exact natToChars_all_nonspace t c h

theorem reconcile_link_term (d : ℚ) (t : ℕ) :
    Part000.reconcile (Part000.urlMarker ++ (Part000.termPat ++ natToChars t)) d =
      Part000.correctUrl d t (Part000.rawBase d t) (Part000.rawFinal d t)
        (decide (|Part000.rawFinal d t - Part000.rawBase d t| > 1/100)) := by
  rw [Part000.reconcile]
  rw [if_pos (occursB_self_append Part000.urlMarker _ (by simp [Part000.urlMarker]))]
  have hscan : scanNatAfter Part000.termPat
      (Part000.urlMarker ++ (Part000.termPat ++ natToChars t)) = some t := by
    have := scanNat_link t [] rfl
    rwa [List.append_nil] at this
  rw [hscan]
  have hnod := linkText_no_dollar t
  have hid1 : Part000.replacePat (Part000.munchTail ((" per month").data))
      (Part000.perMonthRepl t (Part000.rawBase d t) (Part000.rawFinal d t))
      (Part000.urlMarker ++ (Part000.termPat ++ natToChars t)) =
      Part000.urlMarker ++ (Part000.termPat ++ natToChars t) :=
    replacePat_no_dollar _ _ _ hnod
  have hid2 : Part000.replacePat Part000.munchDiv
      (Part000.divRepl d t (Part000.rawBase d t) (Part000.rawFinal d t))
      (Part000.urlMarker ++ (Part000.termPat ++ natToChars t)) =
      Part000.urlMarker ++ (Part000.termPat ++ natToChars t) :=
    replacePat_no_dollar _ _ _ hnod
  simp only [hid1, hid2, ite_self]
  exact replaceLinks_single _ _ (linkText_nonspace t)

set_option maxRecDepth 8000

/-- C3: counterexample.  A model reply carrying a 30-month payment link —
over every cap, documentation or not — passes reconciliation with its term
length intact: the output still contains a payment link and its termLength
re-parses as 30.  No comparison against maxAllowedTerm occurs anywhere in
the reconciliation block. -/
theorem c3_counterexample :
    scanNatAfter Part000.termPat
      (Part000.reconcile (("Here is your secure payment link to get started: collectwise.com/payments?termLength=30&totalDebtAmount=2400&termPaymentAmount=8000&finalPaymentAmount=8000").data)
        2400) = some 30 ∧
    occursB Part000.urlMarker
      (Part000.reconcile (("Here is your secure payment link to get started: collectwise.com/payments?termLength=30&totalDebtAmount=2400&termPaymentAmount=8000&finalPaymentAmount=8000").data)
        2400) = true ∧
    maxAllowedTerm HardshipStatus.unset < 30 ∧
    maxAllowedTerm HardshipStatus.approved < 30 := by
  refine ⟨by decide, by decide, by decide, by decide⟩

/-- C3 (amended): reconciliation performs no cap check — it takes no
hardship input at all — so for every debt, every hardship status and every
term length above that status cap, a reply that is a payment link with
that term is rewritten to the corrected link for the same term: the
over-cap offer reaches the user with its term length re-parsing
unchanged. -/
theorem c3_amended (d : ℚ) (t : ℕ) (s : HardshipStatus)
    (hcap : maxAllowedTerm s < t) :
    scanNatAfter Part000.termPat
      (Part000.reconcile (Part000.urlMarker ++ (Part000.termPat ++ natToChars t)) d) =
      some t ∧
    occursB Part000.urlMarker
      (Part000.reconcile (Part000.urlMarker ++ (Part000.termPat ++ natToChars t)) d) =
      true := by
  rw [reconcile_link_term]
  constructor
  · rw [Part000.correctUrl]
    simp only [List.append_assoc]
    exact scanNat_link t _ rfl
  · rw [Part000.correctUrl]
    simp only [List.append_assoc]
    exact occursB_self_append _ _ (by simp [Part000.urlMarker])

/-- Witness for c3_amended: a 30-month link against an unset hardship
status, debt 2400. -/
theorem c3_amended_witness :
    maxAllowedTerm HardshipStatus.unset < 30 ∧
    scanNatAfter Part000.termPat
      (Part000.reconcile
        (Part000.urlMarker ++ (Part000.termPat ++ natToChars 30)) 2400) = some 30 :=
  ⟨by decide, (c3_amended 2400 30 HardshipStatus.unset (by decide)).1⟩

/-- C8: the reconciliation block is a total function that passes the text
through unchanged whenever no payment-link marker occurs in it, and
likewise whenever no termLength parameter followed by digits can be parsed
from it. -/
theorem c8_reconcile_passthrough (s : List Char) (d : ℚ) :
    (occursB Part000.urlMarker s = false → Part000.reconcile s d = s) ∧
    (scanNatAfter Part000.termPat s = none → Part000.reconcile s d = s) := by
  constructor
  · intro h
    rw [Part000.reconcile, if_neg (by simp [h])]
  · intro h
    rw [Part000.reconcile]
    by_cases hocc : occursB Part000.urlMarker s
    · rw [if_pos hocc, h]
    · rw [if_neg hocc]

/-- Witness for c8_reconcile_passthrough on a plain sentence with neither a
link nor a termLength parameter. -/
theorem c8_reconcile_passthrough_witness :
    occursB Part000.urlMarker (("Can you do 6 months?").data) = false ∧
    Part000.reconcile (("Can you do 6 months?").data) 2400 =
      ("Can you do 6 months?").data ∧
    scanNatAfter Part000.termPat (("Can you do 6 months?").data) = none :=
  ⟨by decide,
   (c8_reconcile_passthrough (("Can you do 6 months?").data) 2400).1 (by decide),
   by decide⟩



namespace Part000

theorem calculatePayment_of_ok (d : ℚ) (t : ℕ)
    (h : ¬ (rawFinal d t < 0 ∨ rawFinal d t > rawBase d t * 2)) :
    (calculatePayment d t).amount = rawBase d t ∧
    (calculatePayment d t).finalPayment = rawFinal d t := by
  unfold calculatePayment
  rw [if_neg (by exact h)]
  exact ⟨rfl, rfl⟩

theorem calculatePayment_of_override (d : ℚ) (t : ℕ)
    (h : rawFinal d t < 0 ∨ rawFinal d t > rawBase d t * 2) :
    (calculatePayment d t).amount = ((round (d / (t : ℚ) * 100) : ℤ) : ℚ) / 100 ∧
    (calculatePayment d t).finalPayment = (calculatePayment d t).amount := by
  unfold calculatePayment
  rw [if_pos (by exact h)]
  exact ⟨rfl, rfl⟩

/-- Positivity of the floor-based final payment for positive debt: the first
arm of the source override condition can never fire on its own. -/
theorem rawFinal_pos (d : ℚ) (t : ℕ) (hd : 0 < d) (h1 : 1 ≤ t) :
    0 < rawFinal d t := by
  have ht : (0 : ℚ) < (t : ℚ) := by exact_mod_cast Nat.pos_of_ne_zero (by omega)
  have hbase : rawBase d t ≤ d / (t : ℚ) := by
    unfold rawBase
    rw [div_le_iff₀ (by norm_num : (0:ℚ) < 100)]
    exact Int.floor_le _
  have htm1 : (0 : ℚ) ≤ (t : ℚ) - 1 := by
    have : (1 : ℚ) ≤ (t : ℚ) := by exact_mod_cast h1
    linarith
  have hmul : rawBase d t * ((t : ℚ) - 1) ≤ d / (t : ℚ) * ((t : ℚ) - 1) :=
    mul_le_mul_of_nonneg_right hbase htm1
  have hdiv : 0 < d / (t : ℚ) := div_pos hd ht
  have hexp : d / (t : ℚ) * ((t : ℚ) - 1) = d - d / (t : ℚ) := by
    field_simp
    ring
  unfold rawFinal
  nlinarith [hmul, hdiv, hexp]

end Part000

/-- C1: counterexample.  For a debt of one dollar and a 36-month term (both
inside the quantified range of the claim) the edge-case override of the
source replaces the floor schedule by an even rounded one of 3 cents per
month, and the 36 payments total 1.08 dollars, not the 1.00 debt. -/
theorem c1_counterexample :
    (Part000.calculatePayment 1 36).amount * 35 +
      (Part000.calculatePayment 1 36).finalPayment ≠ 1 := by
  decide

/-- C1 (amended): for every debt d > 0 and term 1 ≤ n ≤ 36, provided the
floor-based final payment does not exceed twice the base payment (so the
edge-case override of the source does not fire), the schedule returned by
calculatePayment satisfies base·(n-1) + final = d exactly. -/
theorem c1_amended (d : ℚ) (t : ℕ) (hd : 0 < d) (h1 : 1 ≤ t) (h36 : t ≤ 36)
    (hok : Part000.rawFinal d t ≤ Part000.rawBase d t * 2) :
    (Part000.calculatePayment d t).amount * ((t : ℚ) - 1) +
      (Part000.calculatePayment d t).finalPayment = d := by
  have hfin := Part000.rawFinal_pos d t hd h1
  have hnot : ¬ (Part000.rawFinal d t < 0 ∨
      Part000.rawFinal d t > Part000.rawBase d t * 2) := by
    push_neg
    exact ⟨le_of_lt hfin, hok⟩
  obtain ⟨ha, hf⟩ := Part000.calculatePayment_of_ok d t hnot
  rw [ha, hf]
  unfold Part000.rawFinal
  ring

/-- Witness for c1_amended at debt 2400 dollars and 12 months. -/
theorem c1_amended_witness :
    (0 : ℚ) < 2400 ∧ 1 ≤ 12 ∧ 12 ≤ 36 ∧
      Part000.rawFinal 2400 12 ≤ Part000.rawBase 2400 12 * 2 ∧
      (Part000.calculatePayment 2400 12).amount * (((12 : ℕ) : ℚ) - 1) +
        (Part000.calculatePayment 2400 12).finalPayment = 2400 :=
  ⟨by norm_num, by norm_num, by norm_num, by decide,
   c1_amended 2400 12 (by norm_num) (by norm_num) (by norm_num) (by decide)⟩

/-- C4: scenario 1.  For debt 2400.00 and 7 months the calculator returns
base 342.85 (the quotient truncated downward at the cent — rounding to
nearest would give 342.86 instead) and final 342.90, and the schedule sums
to exactly 2400.00. -/
theorem c4_scenario1 :
    (Part000.calculatePayment 2400 7).amount = 342.85 ∧
    (Part000.calculatePayment 2400 7).finalPayment = 342.90 ∧
    (Part000.calculatePayment 2400 7).amount * 6 +
      (Part000.calculatePayment 2400 7).finalPayment = 2400 ∧
    ((round ((2400 / 7 : ℚ) * 100) : ℤ) : ℚ) / 100 = 342.86 := by
  refine ⟨by decide, by decide, by decide, by decide⟩

/-- C9: counterexample.  For a debt of five cents over three months the
floor formula gives base 0.01 and final 0.03; since 0.03 exceeds twice the
base, the source substitutes the even rounded schedule 0.02/0.02 instead of
returning the formula result, contradicting the claimed edge-case policy. -/
theorem c9_counterexample :
    Part000.rawBase (5/100) 3 = 1/100 ∧
    Part000.rawFinal (5/100) 3 = 3/100 ∧
    (Part000.calculatePayment (5/100) 3).amount = 2/100 ∧
    (Part000.calculatePayment (5/100) 3).finalPayment = 2/100 ∧
    (Part000.calculatePayment (5/100) 3).amount ≠ Part000.rawBase (5/100) 3 := by
  refine ⟨by decide, by decide, by decide, by decide, by decide⟩

/-- C9 (amended): when the floor formula would make the final payment
negative or more than double the base, the calculator does not return the
formula result but substitutes an even schedule with base = final = the
rounded-to-nearest-cent quotient; in every other case it returns the
formula result unchanged. -/
theorem c9_amended (d : ℚ) (t : ℕ) :
    (¬ (Part000.rawFinal d t < 0 ∨ Part000.rawFinal d t > Part000.rawBase d t * 2) →
      (Part000.calculatePayment d t).amount = Part000.rawBase d t ∧
      (Part000.calculatePayment d t).finalPayment = Part000.rawFinal d t) ∧
    (Part000.rawFinal d t > Part000.rawBase d t * 2 →
      (Part000.calculatePayment d t).amount =
        ((round (d / (t : ℚ) * 100) : ℤ) : ℚ) / 100 ∧
      (Part000.calculatePayment d t).finalPayment =
        (Part000.calculatePayment d t).amount) :=
  ⟨fun h => Part000.calculatePayment_of_ok d t h,
   fun h => Part000.calculatePayment_of_override d t (Or.inr h)⟩

/-- Witness for c9_amended: the override branch at five cents over three
months. -/
theorem c9_amended_witness :
    Part000.rawFinal (5/100) 3 > Part000.rawBase (5/100) 3 * 2 ∧
    (Part000.calculatePayment (5/100) 3).amount =
      ((round ((5/100 : ℚ) / (3 : ℚ) * 100) : ℤ) : ℚ) / 100 :=
  ⟨by decide, ((c9_amended (5/100) 3).2 (by decide)).1⟩



theorem occursB_append_left (pat x s : List Char) (h : occursB pat s = true) :
    occursB pat (x ++ s) = true := by
  induction x with
  | nil => simpa using h
  | cons c cs ih =>
    rw [List.cons_append, occursB]
    simp [ih]

theorem occursB_append_self_right (pat pre : List Char) (h : pat ≠ []) :
    occursB pat (pre ++ pat) = true := by
  apply occursB_append_left
  have := occursB_self_append pat [] h
  simpa using this

theorem fallback_term_branch (msg : List Char) (d : ℚ) (files : List FileRec)
    (t : ℕ)
    (h1 : occursB ("yes").data (lowerStr msg) = false)
    (h2 : occursB ("works").data (lowerStr msg) = false)
    (h3 : occursB ("good").data (lowerStr msg) = false)
    (h4 : occursB ("sure").data (lowerStr msg) = false)
    (h5 : occursB ("laid off").data (lowerStr msg) = false)
    (h6 : occursB ("lost job").data (lowerStr msg) = false)
    (h7 : occursB ("unemployed").data (lowerStr msg) = false)
    (h8 : occursB ("too high").data (lowerStr msg) = false)
    (h9 : occursB ("expensive").data (lowerStr msg) = false)
    (h10 : occursB (("can").data ++ apoStr ++ ("t afford").data) (lowerStr msg) = false)
    (hm : occursB ("month").data (lowerStr msg) = true)
    (hn : firstNumber msg = some t) :
    Part000.generateFallbackResponse msg d files =
      Part000.termRequestReply d t (!files.isEmpty) (docAcknowledgment files) := by
  rw [Part000.generateFallbackResponse]
  simp only [h1, h2, h3, h4, h5, h6, h7, h8, h9, h10, hm, hn, Bool.or_self,
    Bool.false_or, Bool.or_false, if_true, if_false, Bool.false_eq_true,
    ite_false, ite_true]



theorem occursB_nil_pat (y : List Char) : occursB [] y = true := by
  cases y with
  | nil => rfl
  | cons c cs => simp [occursB, List.isPrefixOf]

theorem isPrefixOf_extend (pat l y : List Char) (h : pat.isPrefixOf l = true) :
    pat.isPrefixOf (l ++ y) = true := by
  induction pat generalizing l with
  | nil => exact List.isPrefixOf_nil_left ..
  | cons p ps ih =>
    cases l with
    | nil => simp [List.isPrefixOf] at h
    | cons b bs =>
      simp only [List.cons_append, List.isPrefixOf, Bool.and_eq_true] at h ⊢
      exact ⟨h.1, ih bs h.2⟩

theorem occursB_append_right (pat s y : List Char) (h : occursB pat s = true) :
    occursB pat (s ++ y) = true := by
  induction s with
  | nil =>
    rw [occursB] at h
    have : pat = [] := by simpa [List.isEmpty_iff] using h
    subst this
    exact occursB_nil_pat _
  | cons c cs ih =>
    rw [List.cons_append, occursB]
    rw [occursB] at h
    rcases (Bool.or_eq_true _ _).mp h with hp | ho
    · have := isPrefixOf_extend pat (c :: cs) y hp
      rw [List.cons_append] at this
      simp [this]
    · simp [ih ho]



/-- C5 (amended): for every user turn that reaches the explicit-term branch
of generateFallbackResponse (no earlier keyword branch fires, the message
mentions month and its first number is t): a request with 1 ≤ t ≤ 12, or
t ≤ 24 with documentation on file, is honored directly — the reply contains
the payment link for exactly term t with the calculator's cent amounts; a
request with 12 < t ≤ 24 and no documentation is rejected with a
counter-offer at the base cap 12 whose explanation states that
documentation is required; a request with t > 24 is countered at the
applicable cap, but that reply does not state the documentation
requirement (c5_counterexample). -/
theorem c5_amended (msg : List Char) (d : ℚ) (files : List FileRec) (t : ℕ)
    (h1 : occursB ("yes").data (lowerStr msg) = false)
    (h2 : occursB ("works").data (lowerStr msg) = false)
    (h3 : occursB ("good").data (lowerStr msg) = false)
    (h4 : occursB ("sure").data (lowerStr msg) = false)
    (h5 : occursB ("laid off").data (lowerStr msg) = false)
    (h6 : occursB ("lost job").data (lowerStr msg) = false)
    (h7 : occursB ("unemployed").data (lowerStr msg) = false)
    (h8 : occursB ("too high").data (lowerStr msg) = false)
    (h9 : occursB ("expensive").data (lowerStr msg) = false)
    (h10 : occursB (("can").data ++ apoStr ++ ("t afford").data) (lowerStr msg) = false)
    (hm : occursB ("month").data (lowerStr msg) = true)
    (hn : firstNumber msg = some t) :
    (1 ≤ t → (t ≤ 12 ∨ (t ≤ 24 ∧ files ≠ [])) →
      occursB (Part000.fallbackLink d (Part000.calculatePayment d t))
        (Part000.generateFallbackResponse msg d files) = true) ∧
    (12 < t → t ≤ 24 → files = [] →
      occursB ("documentation").data
        (Part000.generateFallbackResponse msg d files) = true ∧
      occursB (("Without documentation, the maximum term I can offer is ").data ++
          (Part000.calculatePayment d 12).description)
        (Part000.generateFallbackResponse msg d files) = true) ∧
    (24 < t →
      occursB (("The maximum term I can offer is ").data ++
          (Part000.calculatePayment d (if !files.isEmpty then 24 else 12)).description)
        (Part000.generateFallbackResponse msg d files) = true) := by
  rw [fallback_term_branch msg d files t h1 h2 h3 h4 h5 h6 h7 h8 h9 h10 hm hn]
  have hlink : ∀ (opener : List Char) (p : Part000.PaymentInfo),
      occursB (Part000.fallbackLink d p)
        (opener ++ docAcknowledgment files ++ Part000.planBody d p) = true := by
    intro opener p
    rw [Part000.planBody]
    simp only [← List.append_assoc]
    exact occursB_append_self_right _ _
      (by simp [Part000.fallbackLink, Part000.urlMarker])
  refine ⟨?_, ?_, ?_⟩
  · intro ht1 hcase
    rw [Part000.termRequestReply,
      if_pos ⟨ht1, by rcases hcase with h | h; omega; exact h.1⟩]
    by_cases h8' : t ≤ 8
    · rw [if_pos h8']
      exact hlink _ _
    · rw [if_neg h8']
      by_cases h12 : t ≤ 12
      · rw [if_pos h12]
        exact hlink _ _
      · rw [if_neg h12]
        have hfe : files ≠ [] := by
          rcases hcase with h | h
          · omega
          · exact h.2
        have : files.isEmpty = false := by
          simpa [List.isEmpty_iff] using hfe
        rw [this]
        simp only [Bool.not_false, Bool.not_true, if_false]
        exact hlink _ _
  · intro h12 h24 hfe
    subst hfe
    rw [Part000.termRequestReply, if_pos ⟨by omega, h24⟩,
      if_neg (show ¬ t ≤ 8 by omega), if_neg (show ¬ t ≤ 12 by omega)]
    simp only [List.isEmpty_nil, Bool.not_true, Bool.not_false, if_true]
    constructor
    · apply occursB_append_left
      decide
    · apply occursB_append_right
      apply occursB_append_right
      apply occursB_append_right
      rw [List.append_assoc]
      apply occursB_append_self_right
      simp
  · intro h24
    rw [Part000.termRequestReply,
      if_neg (show ¬ (1 ≤ t ∧ t ≤ 24) by omega), if_pos h24]
    apply occursB_append_right
    rw [List.append_assoc]
    apply occursB_append_self_right
    simp



/-- C5: counterexample.  The user turn requesting 30 months with no
documentation (hardship not approved, cap 12) is countered at 12 months,
but the reply never mentions documentation — contradicting the claim that
every over-cap rejection explains that documentation is required for
longer terms. -/
theorem c5_counterexample :
    occursB ("documentation").data
      (Part000.generateFallbackResponse (("can I do 30 months").data) 2400 []) = false ∧
    occursB (("The maximum term I can offer is ").data ++
        (Part000.calculatePayment 2400 12).description)
      (Part000.generateFallbackResponse (("can I do 30 months").data) 2400 []) = true ∧
    firstNumber (("can I do 30 months").data) = some 30 ∧
    maxAllowedTerm HardshipStatus.unset < 30 := by
  refine ⟨by decide, by decide, by decide, by decide⟩

/-- Witness for c5_amended: the message 12 months please at debt 2400 with
no uploads reaches the explicit-term branch and is honored with the exact
12-month link. -/
theorem c5_amended_witness :
    occursB ("yes").data (lowerStr (("12 months please").data)) = false ∧
    occursB ("month").data (lowerStr (("12 months please").data)) = true ∧
    firstNumber (("12 months please").data) = some 12 ∧
    occursB (Part000.fallbackLink 2400 (Part000.calculatePayment 2400 12))
      (Part000.generateFallbackResponse (("12 months please").data) 2400 []) = true :=
  ⟨by decide, by decide, by decide,
   (c5_amended (("12 months please").data) 2400 [] 12 (by decide) (by decide)
      (by decide) (by decide) (by decide) (by decide) (by decide) (by decide)
      (by decide) (by decide) (by decide) (by decide)).1 (by norm_num)
      (Or.inl (by norm_num))⟩



/-- C10: for every request whose uploadedFiles carry no image files, the
documentApproved flag of the response is false whatever the conversation
history, and the regular chat message request — which always carries an
empty uploadedFiles list — therefore always reports false. -/
theorem c10_upload_only_approval (classify : List FileRec → Bool) (req : ChatRequest)
    (himg : req.uploadedFiles.filter imageFile = [])
    (msg : List Char) (hist : List (List Char)) (d : ℚ) :
    documentApprovedOfRequest classify req = false ∧
    documentApprovedOfRequest classify (Client.regularRequest msg hist d) = false := by
  constructor
  · rw [documentApprovedOfRequest, documentApprovedFlag]
    by_cases he : req.uploadedFiles.isEmpty
    · rw [if_pos he]
    · rw [if_neg he, himg]
      simp
  · rfl

/-- Witness for c10_upload_only_approval: a PDF upload is not an image
file, so even an always-approving classifier yields documentApproved =
false. -/
theorem c10_upload_only_approval_witness :
    ([⟨("doc.pdf").data, ("application/pdf").data⟩] : List FileRec).filter imageFile = [] ∧
    documentApprovedOfRequest (fun _ => true)
      { message := ("hello").data, conversationHistory := [],
        totalDebt := 2400,
        uploadedFiles := [⟨("doc.pdf").data, ("application/pdf").data⟩] } = false :=
  ⟨by decide,
   (c10_upload_only_approval (fun _ => true)
      { message := ("hello").data, conversationHistory := [],
        totalDebt := 2400,
        uploadedFiles := [⟨("doc.pdf").data, ("application/pdf").data⟩] }
      (by decide) ([]) ([]) 0).1⟩

/-- C6: counterexample.  With an always-approving classifier, a session
whose first turn uploads an approvable image reports approved, and the
next turn — no uploads, as every regular message — reports unapproved: the
status reverts, contradicting terminal Approved. -/
theorem c6_counterexample :
    sessionApprovals (fun _ => true)
      [[⟨("paystub.jpg").data, ("image/jpeg").data⟩], []] = [true, false] := by
  decide

/-- C6 (amended): approval is recomputed per request from that request's
uploads only.  Re-submitting the same files (with the classifier verdict
unchanged) reproduces approved, but approval is not persisted: a turn with
no uploads right after an approved turn reports unapproved. -/
theorem c6_amended (classify : List FileRec → Bool) (fs : List FileRec)
    (h : documentApprovedFlag classify fs = true) :
    sessionApprovals classify [fs, fs, []] = [true, true, false] := by
  simp only [sessionApprovals, List.map, h]
  rfl



theorem clientUrlMatch_needle (s : List Char) (h : Client.clientUrlMatch s = true) :
    occursB Route.linkNeedle s = true := by
  induction s with
  | nil => simp [Client.clientUrlMatch] at h
  | cons c cs ih =>
    rw [Client.clientUrlMatch] at h
    rcases (Bool.or_eq_true _ _).mp h with hp | ho
    · rw [Client.clientUrlMatchAt] at hp
      rcases hx : Client.expectPrefix (Part000.urlMarker ++ Part000.termPat) (c :: cs) with _ | r1
      · rw [hx] at hp
        simp [Option.bind] at hp
      · have hpre : (Part000.urlMarker ++ Part000.termPat).isPrefixOf (c :: cs) = true := by
          by_cases hb : (Part000.urlMarker ++ Part000.termPat).isPrefixOf (c :: cs) = true
          · exact hb
          · rw [Client.expectPrefix, if_neg (by simpa using hb)] at hx
            exact absurd hx (by simp)
        have hneedle : Route.linkNeedle.isPrefixOf (c :: cs) = true := by
          have h1 := isPrefixOf_of_append_isPrefixOf Part000.urlMarker Part000.termPat _ hpre
          have h2 : Part000.urlMarker = Route.linkNeedle ++ ['?'] := by decide
          rw [h2] at h1
          exact isPrefixOf_of_append_isPrefixOf Route.linkNeedle ['?'] _ h1
        rw [occursB]
        simp [hneedle]
    · rw [occursB]
      simp [ih ho]



set_option maxRecDepth 16000

/-- C7: counterexample.  A model-call failure on the turn where the user
says yes that works makes the fallback emit a payment link, the response
reports agreementReached, and the client moves the phase to Completed —
the phase is not left at Negotiating as the claim requires of every
timeout turn. -/
theorem c7_counterexample :
    Client.nextNegotiationState
      (Route.postTurnOnFailure
        { message := ("yes that works").data, conversationHistory := [],
          totalDebt := 2400, uploadedFiles := [] }).response
      (Route.postTurnOnFailure
        { message := ("yes that works").data, conversationHistory := [],
          totalDebt := 2400, uploadedFiles := [] }).agreementReached =
      Client.NegotiationState.completed := by
  decide

/-- C7 (amended): the catch path always returns a (non-error) response
determined solely by message, totalDebt and uploadedFiles — identical for
any two requests agreeing on those fields, whatever their histories; the
client phase after the turn is never Initial; and whenever the fallback
text contains no payment link the phase is Negotiating — it advances to
Completed only when the fallback itself emits a link (agreement-keyword
messages, c7_counterexample). -/
theorem c7_amended (req1 req2 : ChatRequest)
    (hm : req1.message = req2.message) (hd : req1.totalDebt = req2.totalDebt)
    (hf : req1.uploadedFiles = req2.uploadedFiles) :
    Route.postTurnOnFailure req1 = Route.postTurnOnFailure req2 ∧
    Client.nextNegotiationState (Route.postTurnOnFailure req1).response
        (Route.postTurnOnFailure req1).agreementReached ≠
      Client.NegotiationState.initial ∧
    (occursB Route.linkNeedle (Route.postTurnOnFailure req1).response = false →
      Client.nextNegotiationState (Route.postTurnOnFailure req1).response
        (Route.postTurnOnFailure req1).agreementReached =
        Client.NegotiationState.negotiating) := by
  refine ⟨?_, ?_, ?_⟩
  · rw [Route.postTurnOnFailure, Route.postTurnOnFailure, hm, hd, hf]
  · rw [Client.nextNegotiationState]
    split
    · simp
    · simp
  · intro h
    have hcl : Client.clientUrlMatch (Route.postTurnOnFailure req1).response = false := by
      by_cases hb : Client.clientUrlMatch (Route.postTurnOnFailure req1).response = true
      · have := clientUrlMatch_needle _ hb
        rw [h] at this
        exact absurd this (by simp)
      · simpa using hb
    have hagf : (Route.postTurnOnFailure req1).agreementReached = false := h
    rw [Client.nextNegotiationState, hcl, hagf]
    simp


/-- Witness for c6_amended: an approvable image upload under an
always-approving classifier, resubmitted, then a turn with no uploads. -/
theorem c6_amended_witness :
    documentApprovedFlag (fun _ => true)
      [⟨("letter.png").data, ("image/png").data⟩] = true ∧
    sessionApprovals (fun _ => true)
      [[⟨("letter.png").data, ("image/png").data⟩],
       [⟨("letter.png").data, ("image/png").data⟩], []] = [true, true, false] :=
  ⟨by decide, c6_amended (fun _ => true) _ (by decide)⟩

/-- Witness for c7_amended: a turn asking what are my options — the
fallback offers 8 months with no link, and the phase stays Negotiating. -/
theorem c7_amended_witness :
    occursB Route.linkNeedle
      (Route.postTurnOnFailure
        { message := ("what are my options").data, conversationHistory := [],
          totalDebt := 2400, uploadedFiles := [] }).response = false ∧
    Client.nextNegotiationState
      (Route.postTurnOnFailure
        { message := ("what are my options").data, conversationHistory := [],
          totalDebt := 2400, uploadedFiles := [] }).response
      (Route.postTurnOnFailure
        { message := ("what are my options").data, conversationHistory := [],
          totalDebt := 2400, uploadedFiles := [] }).agreementReached =
      Client.NegotiationState.negotiating :=
  ⟨by decide,
   (c7_amended
      { message := ("what are my options").data, conversationHistory := [],
        totalDebt := 2400, uploadedFiles := [] }
      { message := ("what are my options").data, conversationHistory := [],
        totalDebt := 2400, uploadedFiles := [] } rfl rfl rfl).2.2 (by decide)⟩

end CollectWise
